import Mathlib

/-!
Verification development for the satellite pass-prediction and
common-visibility-window core of `satellite_operator_toolbox`.

The repository contains two implementations of the core:
`SatelliteService.find_passes` / `find_common_windows`
(src/services/satellite_service.py) and the static
`SatelliteTracker.find_passes` / `find_common_windows` (src/app.py).
Both are embedded below.

Modelling conventions:
* A Python `str` is a list of Unicode code points (`PyStr := List Nat`);
  Python string comparison is lexicographic by code point (`strLtB`).
* A Python `datetime` is a record of six numeric fields (`DT`); Python
  compares datetimes field-lexicographically, which on in-range fields
  coincides with comparison of the base-100 positional key `DT.key`.
  `datetime.strptime(s, "%Y-%m-%d %H:%M:%S")` is modelled by `parseDT`
  (canonical fixed-width form, with the constructor's range checks) and
  `strftime` by `renderDT` (zero-padded fixed-width rendering).
  `timedelta.total_seconds` is modelled through the proleptic-Gregorian
  day count `daysFromCivil` (differences agree with Python's
  `datetime.toordinal` differences).
* Python floats that are exact in the code (whole-second durations,
  elevations) are modelled as `Int` / `Rat`.
* The skyfield propagator is an oracle: `find_passes` receives the event
  tag list, the event time list and an altitude-at-time function, exactly
  the data the code obtains from `satellite.find_events` and `altaz()`.
* Index errors are modelled by `Option` (list access via `List.get?`),
  and `ValueError` from `strptime` by `Except Unit`.
-/

/-- A Python string, as its list of Unicode code points. -/
abbrev PyStr := List Nat

/-- Code points of a Lean string literal, for readable concrete values. -/
def strOfLit (s : String) : PyStr := s.toList.map Char.toNat

/-- Python's lexicographic strict comparison of strings (code-point order). -/
def strLtB : PyStr → PyStr → Bool
  | [], [] => false
  | [], _ :: _ => true
  | _ :: _, [] => false
  | a :: as, b :: bs => if a < b then true else if a = b then strLtB as bs else false

/-- Python's `<=` on strings: `a <= b` iff `not (b < a)`. -/
def strLeB (a b : PyStr) : Bool := ! strLtB b a

/-- A Python `datetime` value (date and time of day, second resolution). -/
structure DT where
  year : Nat
  month : Nat
  day : Nat
  hour : Nat
  minute : Nat
  second : Nat
deriving DecidableEq, Repr

/-- Base-100 positional key; on in-range fields, comparison of keys is
exactly Python's field-lexicographic `datetime` comparison. -/
def DT.key (d : DT) : Nat :=
  ((((d.year * 100 + d.month) * 100 + d.day) * 100 + d.hour) * 100 + d.minute) * 100 + d.second

/-- Gregorian leap-year test (as in Python's `calendar`/`datetime`). -/
def isLeapYear (y : Nat) : Bool := (y % 4 = 0 && y % 100 ≠ 0) || y % 400 = 0

/-- Number of days in a month, as validated by the `datetime` constructor. -/
def daysInMonth (y m : Nat) : Nat :=
  if m = 2 then (if isLeapYear y then 29 else 28)
  else if m = 4 ∨ m = 6 ∨ m = 9 ∨ m = 11 then 30
  else 31

/-- Proleptic-Gregorian day count (civil-days algorithm); differences of
this function agree with differences of Python's `datetime.toordinal`. -/
def daysFromCivil (y m d : Nat) : Nat :=
  let yy := if m ≤ 2 then y - 1 else y
  let era := yy / 400
  let yoe := yy % 400
  let mp := (m + 9) % 12
  let doy := (153 * mp + 2) / 5 + d - 1
  let doe := yoe * 365 + yoe / 4 - yoe / 100 + doy
  era * 146097 + doe

/-- Seconds-from-epoch count; differences model `timedelta.total_seconds`
for second-resolution datetimes. -/
def DT.toSecs (d : DT) : Nat :=
  daysFromCivil d.year d.month d.day * 86400 + d.hour * 3600 + d.minute * 60 + d.second

/-- Decimal digit test on a code point. -/
def isDigit (c : Nat) : Bool := 48 ≤ c && c ≤ 57

/-- Model of `datetime.strptime(s, "%Y-%m-%d %H:%M:%S")` on the canonical
fixed-width form produced by the code's own `strftime` calls: exactly 19
code points, digits in the numeric positions, `-`, space and `:` as
separators, with the `datetime` constructor's range checks (year at least
1, month 1..12, day valid for the month, hour at most 23, minute and
second at most 59). Any other input is a `ValueError` (`none`). -/
def parseDT : PyStr → Option DT
  | [y1, y2, y3, y4, s1, o1, o2, s2, a1, a2, s3, h1, h2, s4, n1, n2, s5, c1, c2] =>
    let y := (((y1 - 48) * 10 + (y2 - 48)) * 10 + (y3 - 48)) * 10 + (y4 - 48)
    let mo := (o1 - 48) * 10 + (o2 - 48)
    let dy := (a1 - 48) * 10 + (a2 - 48)
    let hr := (h1 - 48) * 10 + (h2 - 48)
    let mi := (n1 - 48) * 10 + (n2 - 48)
    let se := (c1 - 48) * 10 + (c2 - 48)
    if isDigit y1 && isDigit y2 && isDigit y3 && isDigit y4 && s1 = 45 &&
        isDigit o1 && isDigit o2 && s2 = 45 && isDigit a1 && isDigit a2 && s3 = 32 &&
        isDigit h1 && isDigit h2 && s4 = 58 && isDigit n1 && isDigit n2 && s5 = 58 &&
        isDigit c1 && isDigit c2 && 1 ≤ y && 1 ≤ mo && mo ≤ 12 &&
        1 ≤ dy && dy ≤ daysInMonth y mo && hr ≤ 23 && mi ≤ 59 && se ≤ 59 then
      some ⟨y, mo, dy, hr, mi, se⟩
    else none
  | _ => none

/-- Two-digit zero-padded decimal rendering (code points). -/
def pad2 (n : Nat) : PyStr := [48 + n / 10 % 10, 48 + n % 10]

/-- Four-digit zero-padded decimal rendering (code points). -/
def pad4 (n : Nat) : PyStr :=
  [48 + n / 1000 % 10, 48 + n / 100 % 10, 48 + n / 10 % 10, 48 + n % 10]

/-- Model of `strftime("%Y-%m-%d %H:%M:%S")`: fixed-width zero-padded
rendering, 19 code points. -/
def renderDT (d : DT) : PyStr :=
  pad4 d.year ++ (45 :: (pad2 d.month ++ (45 :: (pad2 d.day ++ (32 :: (pad2 d.hour ++
    (58 :: (pad2 d.minute ++ (58 :: pad2 d.second)))))))))

/-- Python's `max` on two datetimes: the second argument wins only when it
is strictly larger. -/
def dtMax (a b : DT) : DT := if a.key < b.key then b else a

/-- Python's `min` on two datetimes: the second argument wins only when it
is strictly smaller. -/
def dtMin (a b : DT) : DT := if b.key < a.key then b else a

/-- Fuel-driven helper for `natDigits`; `fuel` bounds the number of digits,
so `natDigitsAux n n` always has enough fuel. -/
def natDigitsAux (fuel n : Nat) : PyStr :=
  match fuel with
  | 0 => []
  | fuel + 1 => if n < 10 then [48 + n] else natDigitsAux fuel (n / 10) ++ [48 + n % 10]

/-- Decimal digit string of a natural number (no padding). -/
def natDigits (n : Nat) : PyStr := natDigitsAux (n + 1) n

/-- Model of Python's `str` on an `int`. -/
def intToStr (i : Int) : PyStr :=
  if i < 0 then 45 :: natDigits i.natAbs else natDigits i.toNat

/-- A satellite pass record: the fields of `models.satellite.SatellitePass`
(and of the equal-keyed dict built by `SatelliteTracker.find_passes`). -/
structure SatellitePass where
  rise_time_utc : PyStr
  culmination_time_utc : PyStr
  set_time_utc : PyStr
  max_elevation_degrees : Rat
deriving DecidableEq, Repr

/-- Round-half-even of the fraction `a / b` (`b` positive), computed on the
integers so the kernel can evaluate it. -/
def roundHalfEven2 (a : Int) (b : Nat) : Int :=
  let f := Int.fdiv a b
  let r2 := 2 * (a - f * b)
  if r2 < b then f
  else if (b : Int) < r2 then f + 1
  else if f % 2 = 0 then f else f + 1

/-- Model of Python's `round(x, 2)` (banker's rounding) on the exact
rational value. -/
def round2 (q : Rat) : Rat := Rat.divInt (roundHalfEven2 (q.num * 100) q.den) 100

/-- Embedding of the loop of `SatelliteService.find_passes`
(src/services/satellite_service.py lines 61-81): `for i in range(0,
len(events) - 2, PASS_EVENT_SEQUENCE_LENGTH)` starting at index `i`,
accepting a triple only when the event tags are `RISE, CULMINATE, SET`
(`0, 1, 2`). `events` and `times` are the two arrays returned by the
propagator's `find_events`; `altDeg` gives the topocentric altitude that
`altaz()` reports at a given time. List accesses go through `List.get?`,
so an out-of-bounds access surfaces as `none`. -/
def svcFindPassesFrom (events : List Nat) (times : List DT) (altDeg : DT → Rat) (i : Nat) :
    Option (List SatellitePass) :=
  if _h : i + 2 < events.length then
    match events.get? i, events.get? (i + 1), events.get? (i + 2) with
    | some e0, some e1, some e2 =>
      match svcFindPassesFrom events times altDeg (i + 3) with
      | some rest =>
        if e0 = 0 ∧ e1 = 1 ∧ e2 = 2 then
          match times.get? i, times.get? (i + 1), times.get? (i + 2) with
          | some rise_time, some culminate_time, some set_time =>
            some ({ rise_time_utc := renderDT rise_time,
                    culmination_time_utc := renderDT culminate_time,
                    set_time_utc := renderDT set_time,
                    max_elevation_degrees := round2 (altDeg culminate_time) } :: rest)
          | _, _, _ => none
        else some rest
      | none => none
    | _, _, _ => none
  else some []
  termination_by events.length - i
  decreasing_by omega

/-- Entry point of `SatelliteService.find_passes` on the propagator data. -/
def svcFindPasses (events : List Nat) (times : List DT) (altDeg : DT → Rat) :
    Option (List SatellitePass) :=
  svcFindPassesFrom events times altDeg 0

/-- Embedding of the loop of `SatelliteTracker.find_passes` (src/app.py
lines 374-397): `for i in range(0, len(events) - 2, 3)`, accepting a triple
only when the event tags are `0, 1, 2`; the pass dict stores the same keys
as `SatellitePass`, with `round(max_elevation, 2)`. -/
def appFindPassesFrom (events : List Nat) (times : List DT) (altDeg : DT → Rat) (i : Nat) :
    Option (List SatellitePass) :=
  if _h : i + 2 < events.length then
    match events.get? i, events.get? (i + 1), events.get? (i + 2) with
    | some e0, some e1, some e2 =>
      match appFindPassesFrom events times altDeg (i + 3) with
      | some rest =>
        if e0 = 0 ∧ e1 = 1 ∧ e2 = 2 then
          match times.get? i, times.get? (i + 1), times.get? (i + 2) with
          | some rise_time, some culminate_time, some set_time =>
            some ({ rise_time_utc := renderDT rise_time,
                    culmination_time_utc := renderDT culminate_time,
                    set_time_utc := renderDT set_time,
                    max_elevation_degrees := round2 (altDeg culminate_time) } :: rest)
          | _, _, _ => none
        else some rest
      | none => none
    | _, _, _ => none
  else some []
  termination_by events.length - i
  decreasing_by omega

/-- Entry point of `SatelliteTracker.find_passes` on the propagator data. -/
def appFindPasses (events : List Nat) (times : List DT) (altDeg : DT → Rat) :
    Option (List SatellitePass) :=
  appFindPassesFrom events times altDeg 0

/-- Consecutive disjoint triples of a list; a trailing group of fewer than
three elements is dropped. -/
def chunk3 {α : Type} : List α → List (α × α × α)
  | a :: b :: c :: rest => (a, b, c) :: chunk3 rest
  | _ => []

/-- Acceptance function on one propagator event triple: a pass is produced
exactly when the tags are `RISE, CULMINATE, SET` (`0, 1, 2`) in order. -/
def acceptTriple (altDeg : DT → Rat) (t : (Nat × DT) × (Nat × DT) × (Nat × DT)) :
    Option SatellitePass :=
  if t.1.1 = 0 ∧ t.2.1.1 = 1 ∧ t.2.2.1 = 2 then
    some { rise_time_utc := renderDT t.1.2,
           culmination_time_utc := renderDT t.2.1.2,
           set_time_utc := renderDT t.2.2.2,
           max_elevation_degrees := round2 (altDeg t.2.1.2) }
  else none

/-- A common-visibility window as built by
`SatelliteService.find_common_windows` (src/services/satellite_service.py
lines 110-116): the five dict keys, with the whole-second duration as an
integer and the human-readable duration string. -/
structure SvcWindow where
  rise_time_utc : PyStr
  set_time_utc : PyStr
  max_elevation_degrees : Rat
  duration_seconds : Int
  duration_str : PyStr
deriving DecidableEq, Repr

/-- A common-visibility window as built by
`SatelliteTracker.find_common_windows` (src/app.py lines 430-442): the
same five keys plus back-references to the two contributing passes. -/
structure AppWindow where
  rise_time_utc : PyStr
  set_time_utc : PyStr
  max_elevation_degrees : Rat
  duration_seconds : Int
  duration_str : PyStr
  station1_rise : PyStr
  station1_set : PyStr
  station1_max_el : Rat
  station2_rise : PyStr
  station2_set : PyStr
  station2_max_el : Rat
deriving DecidableEq, Repr

/-- Render of the `f"{duration_min}m {duration_sec_remainder}s"` string:
floor division and the nonnegative remainder, as Python computes them. -/
def durationStr (duration_sec : Int) : PyStr :=
  intToStr (Int.fdiv duration_sec 60) ++ 109 :: 32 :: intToStr (Int.emod duration_sec 60) ++ [115]

/-- Inner-loop body of `SatelliteService.find_common_windows` for one pair
of passes (src/services/satellite_service.py lines 93-117): parse the four
timestamps (in source order; a failure is the propagated `ValueError`),
test closed-interval overlap with `datetime` comparison, and on overlap
build the window dict. -/
def svcPairWindow (pass1 pass2 : SatellitePass) : Except Unit (Option SvcWindow) :=
  match parseDT pass1.rise_time_utc with
  | none => .error ()
  | some rise_time1 =>
    match parseDT pass1.set_time_utc with
    | none => .error ()
    | some set_time1 =>
      match parseDT pass2.rise_time_utc with
      | none => .error ()
      | some rise_time2 =>
        match parseDT pass2.set_time_utc with
        | none => .error ()
        | some set_time2 =>
          .ok (if rise_time1.key ≤ set_time2.key ∧ rise_time2.key ≤ set_time1.key then
            let common_rise := dtMax rise_time1 rise_time2
            let common_set := dtMin set_time1 set_time2
            let duration_sec : Int := (common_set.toSecs : Int) - (common_rise.toSecs : Int)
            some { rise_time_utc := renderDT common_rise,
                   set_time_utc := renderDT common_set,
                   max_elevation_degrees :=
                     min pass1.max_elevation_degrees pass2.max_elevation_degrees,
                   duration_seconds := duration_sec,
                   duration_str := durationStr duration_sec }
          else none)

/-- Inner loop of `SatelliteService.find_common_windows` over the second
station's passes. -/
def svcInnerLoop (pass1 : SatellitePass) : List SatellitePass → Except Unit (List SvcWindow)
  | [] => .ok []
  | pass2 :: rest =>
    match svcPairWindow pass1 pass2 with
    | .error e => .error e
    | .ok w =>
      match svcInnerLoop pass1 rest with
      | .error e => .error e
      | .ok ws => .ok (match w with | some win => win :: ws | none => ws)

/-- Embedding of `SatelliteService.find_common_windows`
(src/services/satellite_service.py lines 87-119): the full nested loop in
iteration order; the result list is returned as generated, unsorted. -/
def svcFindCommonWindows : List SatellitePass → List SatellitePass → Except Unit (List SvcWindow)
  | [], _ => .ok []
  | pass1 :: rest, passes2 =>
    match svcInnerLoop pass1 passes2 with
    | .error e => .error e
    | .ok ws1 =>
      match svcFindCommonWindows rest passes2 with
      | .error e => .error e
      | .ok ws2 => .ok (ws1 ++ ws2)

/-- Inner-loop body of `SatelliteTracker.find_common_windows` for one pair
(src/app.py lines 409-444): station-1 times are already parsed by the
outer loop; parse station-2 times, test overlap, and on overlap build the
window dict including the back-reference fields. -/
def appPairWindow (pass1 : SatellitePass) (rise_time1 set_time1 : DT) (pass2 : SatellitePass) :
    Except Unit (Option AppWindow) :=
  match parseDT pass2.rise_time_utc with
  | none => .error ()
  | some rise_time2 =>
    match parseDT pass2.set_time_utc with
    | none => .error ()
    | some set_time2 =>
      .ok (if rise_time1.key ≤ set_time2.key ∧ rise_time2.key ≤ set_time1.key then
        let common_rise := dtMax rise_time1 rise_time2
        let common_set := dtMin set_time1 set_time2
        let duration_sec : Int := (common_set.toSecs : Int) - (common_rise.toSecs : Int)
        some { rise_time_utc := renderDT common_rise,
               set_time_utc := renderDT common_set,
               max_elevation_degrees :=
                 min pass1.max_elevation_degrees pass2.max_elevation_degrees,
               duration_seconds := duration_sec,
               duration_str := durationStr duration_sec,
               station1_rise := pass1.rise_time_utc,
               station1_set := pass1.set_time_utc,
               station1_max_el := pass1.max_elevation_degrees,
               station2_rise := pass2.rise_time_utc,
               station2_set := pass2.set_time_utc,
               station2_max_el := pass2.max_elevation_degrees }
      else none)

/-- Inner loop of `SatelliteTracker.find_common_windows`. -/
def appInnerLoop (pass1 : SatellitePass) (rise_time1 set_time1 : DT) :
    List SatellitePass → Except Unit (List AppWindow)
  | [] => .ok []
  | pass2 :: rest =>
    match appPairWindow pass1 rise_time1 set_time1 pass2 with
    | .error e => .error e
    | .ok w =>
      match appInnerLoop pass1 rise_time1 set_time1 rest with
      | .error e => .error e
      | .ok ws => .ok (match w with | some win => win :: ws | none => ws)

/-- Outer loop of `SatelliteTracker.find_common_windows` (src/app.py lines
405-444): parses the station-1 pass times before entering the inner loop,
so a malformed station-1 timestamp raises even when the station-2 list is
empty. -/
def appOuterLoop : List SatellitePass → List SatellitePass → Except Unit (List AppWindow)
  | [], _ => .ok []
  | pass1 :: rest, passes2 =>
    match parseDT pass1.rise_time_utc with
    | none => .error ()
    | some rise_time1 =>
      match parseDT pass1.set_time_utc with
      | none => .error ()
      | some set_time1 =>
        match appInnerLoop pass1 rise_time1 set_time1 passes2 with
        | .error e => .error e
        | .ok ws1 =>
          match appOuterLoop rest passes2 with
          | .error e => .error e
          | .ok ws2 => .ok (ws1 ++ ws2)

/-- Sort key relation used by `sorted(common_windows, key=lambda x:
x["rise_time_utc"])`: Python string comparison of the rise timestamps. -/
def appWinLe (w1 w2 : AppWindow) : Prop :=
  strLeB w1.rise_time_utc w2.rise_time_utc = true

instance : DecidableRel appWinLe := fun _ _ => instDecidableEqBool _ _

/-- Embedding of `SatelliteTracker.find_common_windows` (src/app.py lines
399-446): the nested loop followed by the stable sort on the rise
timestamp string. -/
def appFindCommonWindows (passes_station1 passes_station2 : List SatellitePass) :
    Except Unit (List AppWindow) :=
  match appOuterLoop passes_station1 passes_station2 with
  | .error e => .error e
  | .ok ws => .ok (List.insertionSort appWinLe ws)

/-- Well-formedness of a pass for the common-window algorithm: its rise
and set timestamps parse under the fixed `"%Y-%m-%d %H:%M:%S"` format. -/
def wfPass (p : SatellitePass) : Prop :=
  (parseDT p.rise_time_utc).isSome ∧ (parseDT p.set_time_utc).isSome

instance (p : SatellitePass) : Decidable (wfPass p) := instDecidableAnd

/-- Well-formedness of a whole pass list. -/
def wfList (l : List SatellitePass) : Prop := ∀ p ∈ l, wfPass p

instance (l : List SatellitePass) : Decidable (wfList l) := List.decidableBAll _ l

/-- The window the service implementation produces for one pair of passes
(`none` if the pair does not overlap or a timestamp fails to parse). -/
def svcPairPure (pass1 pass2 : SatellitePass) : Option SvcWindow :=
  match svcPairWindow pass1 pass2 with
  | .ok w => w
  | .error _ => none

/-- The window the app implementation produces for one pair of passes. -/
def appPairPure (pass1 pass2 : SatellitePass) : Option AppWindow :=
  match parseDT pass1.rise_time_utc, parseDT pass1.set_time_utc with
  | some rise_time1, some set_time1 =>
    match appPairWindow pass1 rise_time1 set_time1 pass2 with
    | .ok w => w
    | .error _ => none
  | _, _ => none

/-- Weak field bounds under which the fixed-width rendering of a `DT` is
faithful to its key order; every parsed `DT` satisfies them. -/
def validW (d : DT) : Prop :=
  d.year ≤ 9999 ∧ d.month ≤ 99 ∧ d.day ≤ 99 ∧ d.hour ≤ 99 ∧ d.minute ≤ 99 ∧ d.second ≤ 99

/-- The closed-interval overlap test, following the spec's words:
`pA.rise <= pB.set AND pB.rise <= pA.set` on the parsed instants. -/
def overlapDT (r1 s1 r2 s2 : DT) : Prop := r1.key ≤ s2.key ∧ r2.key ≤ s1.key

instance (r1 s1 r2 s2 : DT) : Decidable (overlapDT r1 s1 r2 s2) := instDecidableAnd

/-- The CommonWindow record built from the spec's formulas (section 4.2):
common rise is the max of the rises, common set the min of the sets,
elevation summary the min of the two max elevations, with the derived
whole-second duration and its truncated rendering. -/
def specWindow (e1 e2 : Rat) (r1 s1 r2 s2 : DT) : SvcWindow :=
  let common_rise := dtMax r1 r2
  let common_set := dtMin s1 s2
  let dur : Int := (common_set.toSecs : Int) - (common_rise.toSecs : Int)
  { rise_time_utc := renderDT common_rise,
    set_time_utc := renderDT common_set,
    max_elevation_degrees := min e1 e2,
    duration_seconds := dur,
    duration_str := durationStr dur }

/-- Optional cons, the shape of one `filterMap` step. -/
def optCons {γ : Type} : Option γ → List γ → List γ
  | some x, l => x :: l
  | none, l => l

/-- The five shared window fields of an app window. -/
def coreOf (w : AppWindow) : SvcWindow :=
  { rise_time_utc := w.rise_time_utc,
    set_time_utc := w.set_time_utc,
    max_elevation_degrees := w.max_elevation_degrees,
    duration_seconds := w.duration_seconds,
    duration_str := w.duration_str }

/-- A zero altitude oracle, for concrete instantiations. -/
def altZero : DT → Rat := fun _ => 0

instance (d : DT) : Decidable (validW d) :=
  inferInstanceAs (Decidable (d.year ≤ 9999 ∧ d.month ≤ 99 ∧ d.day ≤ 99 ∧ d.hour ≤ 99 ∧
    d.minute ≤ 99 ∧ d.second ≤ 99))

/-- Concrete times for concrete instantiations: minute `i` of a fixed hour. -/
def mkT (i : Nat) : DT := ⟨2024, 6, 15, 10, i, 0⟩

deriving instance DecidableEq for Except

/-- Scenario A station-1 pass: rise 10:00:00, culminate 10:05:00, set
10:10:00, max elevation 45.0. -/
def scnPass1 : SatellitePass :=
  ⟨strOfLit "2024-06-15 10:00:00", strOfLit "2024-06-15 10:05:00",
    strOfLit "2024-06-15 10:10:00", 45⟩

/-- Scenario A station-2 pass: rise 10:02:00, culminate 10:07:00, set
10:12:00, max elevation 40.0. -/
def scnPass2 : SatellitePass :=
  ⟨strOfLit "2024-06-15 10:02:00", strOfLit "2024-06-15 10:07:00",
    strOfLit "2024-06-15 10:12:00", 40⟩

/-- The service window Scenario A must produce. -/
def scnWindow : SvcWindow :=
  ⟨strOfLit "2024-06-15 10:02:00", strOfLit "2024-06-15 10:10:00", 40, 480, strOfLit "8m 0s"⟩

/-- The app window Scenario A must produce. -/
def scnAppWindow : AppWindow :=
  ⟨strOfLit "2024-06-15 10:02:00", strOfLit "2024-06-15 10:10:00", 40, 480, strOfLit "8m 0s",
    strOfLit "2024-06-15 10:00:00", strOfLit "2024-06-15 10:10:00", 45,
    strOfLit "2024-06-15 10:02:00", strOfLit "2024-06-15 10:12:00", 40⟩

/-- Decidable check that a pair of passes has parseable timestamps and
overlapping closed intervals. -/
def pairOverlapsB (p1 p2 : SatellitePass) : Bool :=
  match parseDT p1.rise_time_utc, parseDT p1.set_time_utc,
      parseDT p2.rise_time_utc, parseDT p2.set_time_utc with
  | some r1, some s1, some r2, some s2 => decide (overlapDT r1 s1 r2 s2)
  | _, _, _, _ => false

/-- A pass with an unparseable timestamp, for the C9 counterexample. -/
def badPass : SatellitePass := ⟨[], [], [], 0⟩

/-- Scenario B station-2 pass, disjoint from `scnPass1`. -/
def scnLatePass : SatellitePass :=
  ⟨strOfLit "2024-06-15 14:00:00", strOfLit "2024-06-15 14:05:00",
    strOfLit "2024-06-15 14:10:00", 40⟩

/-- A late pass, listed first, for the C2 counterexample. -/
def cxLate : SatellitePass :=
  ⟨strOfLit "2024-06-15 14:00:00", strOfLit "2024-06-15 14:05:00",
    strOfLit "2024-06-15 14:10:00", 30⟩

/-- A wide pass overlapping both `cxLate` and `scnPass1`. -/
def cxWide : SatellitePass :=
  ⟨strOfLit "2024-06-15 09:00:00", strOfLit "2024-06-15 12:00:00",
    strOfLit "2024-06-15 15:00:00", 40⟩

/-- Station-1 pass rising at 10:01 instead of 10:00, otherwise equal to
`scnPass1`; used to show the service windows keep no back-reference. -/
def scnPass1Shifted : SatellitePass :=
  ⟨strOfLit "2024-06-15 10:01:00", strOfLit "2024-06-15 10:05:00",
    strOfLit "2024-06-15 10:10:00", 45⟩

/-- A list shorter than three elements has no complete triple. -/
theorem chunk3_of_short {α : Type} (l : List α) (h : l.length ≤ 2) : chunk3 l = [] := by
  match l with
  | [] => rfl
  | [a] => rfl
  | [a, b] => rfl
  | a :: b :: c :: r => simp at h

/-- Characterization of the `SatelliteService.find_passes` loop: starting
at index `i` it returns exactly the accepted complete triples of the
remaining event/time sequence, and never hits an out-of-bounds access. -/
theorem svcFindPassesFrom_eq (ev : List Nat) (ts : List DT) (f : DT → Rat)
    (hlen : ts.length = ev.length) (i : Nat) :
    svcFindPassesFrom ev ts f i =
      some ((chunk3 ((ev.drop i).zip (ts.drop i))).filterMap (acceptTriple f)) := by
  rw [svcFindPassesFrom]
  split
  case isTrue h =>
    have h0 : i < ev.length := by omega
    have h1 : i + 1 < ev.length := by omega
    have h2 : i + 2 < ev.length := by omega
    have t0 : i < ts.length := by omega
    have t1 : i + 1 < ts.length := by omega
    have t2 : i + 2 < ts.length := by omega
    rw [List.get?_eq_get h0, List.get?_eq_get h1, List.get?_eq_get h2]
    rw [List.get?_eq_get t0, List.get?_eq_get t1, List.get?_eq_get t2]
    rw [svcFindPassesFrom_eq ev ts f hlen (i + 3)]
    rw [List.drop_eq_getElem_cons h0, List.drop_eq_getElem_cons h1, List.drop_eq_getElem_cons h2,
        List.drop_eq_getElem_cons t0, List.drop_eq_getElem_cons t1, List.drop_eq_getElem_cons t2]
    simp only [List.zip_cons_cons, chunk3, List.filterMap_cons, acceptTriple, List.get_eq_getElem]
    by_cases hc : ev[i] = 0 ∧ ev[i + 1] = 1 ∧ ev[i + 2] = 2
    · simp [hc, List.zip, show i + 2 + 1 = i + 3 by omega]
    · simp [hc, List.zip, show i + 2 + 1 = i + 3 by omega]
  case isFalse h =>
    have : ((ev.drop i).zip (ts.drop i)).length ≤ 2 := by
      rw [List.length_zip, List.length_drop, List.length_drop]
      omega
    rw [chunk3_of_short _ this]
    rfl
  termination_by ev.length - i
  decreasing_by omega

/-- Characterization of the `SatelliteTracker.find_passes` loop, identical
to the service one. -/
theorem appFindPassesFrom_eq (ev : List Nat) (ts : List DT) (f : DT → Rat)
    (hlen : ts.length = ev.length) (i : Nat) :
    appFindPassesFrom ev ts f i =
      some ((chunk3 ((ev.drop i).zip (ts.drop i))).filterMap (acceptTriple f)) := by
  rw [appFindPassesFrom]
  split
  case isTrue h =>
    have h0 : i < ev.length := by omega
    have h1 : i + 1 < ev.length := by omega
    have h2 : i + 2 < ev.length := by omega
    have t0 : i < ts.length := by omega
    have t1 : i + 1 < ts.length := by omega
    have t2 : i + 2 < ts.length := by omega
    rw [List.get?_eq_get h0, List.get?_eq_get h1, List.get?_eq_get h2]
    rw [List.get?_eq_get t0, List.get?_eq_get t1, List.get?_eq_get t2]
    rw [appFindPassesFrom_eq ev ts f hlen (i + 3)]
    rw [List.drop_eq_getElem_cons h0, List.drop_eq_getElem_cons h1, List.drop_eq_getElem_cons h2,
        List.drop_eq_getElem_cons t0, List.drop_eq_getElem_cons t1, List.drop_eq_getElem_cons t2]
    simp only [List.zip_cons_cons, chunk3, List.filterMap_cons, acceptTriple, List.get_eq_getElem]
    by_cases hc : ev[i] = 0 ∧ ev[i + 1] = 1 ∧ ev[i + 2] = 2
    · simp [hc, List.zip, show i + 2 + 1 = i + 3 by omega]
    · simp [hc, List.zip, show i + 2 + 1 = i + 3 by omega]
  case isFalse h =>
    have : ((ev.drop i).zip (ts.drop i)).length ≤ 2 := by
      rw [List.length_zip, List.length_drop, List.length_drop]
      omega
    rw [chunk3_of_short _ this]
    rfl
  termination_by ev.length - i
  decreasing_by omega

/-- The two pass-finder loops agree on every input, including ones where
the time and event arrays have different lengths. -/
theorem findPassesFrom_agree (ev : List Nat) (ts : List DT) (f : DT → Rat) (i : Nat) :
    svcFindPassesFrom ev ts f i = appFindPassesFrom ev ts f i := by
  rw [svcFindPassesFrom, appFindPassesFrom]
  split
  case isTrue h =>
    cases ev.get? i with
    | none => rfl
    | some e0 =>
      cases ev.get? (i + 1) with
      | none => rfl
      | some e1 =>
        cases ev.get? (i + 2) with
        | none => rfl
        | some e2 =>
          rw [findPassesFrom_agree ev ts f (i + 3)]
  case isFalse h => rfl
  termination_by ev.length - i
  decreasing_by omega

/-- Nothing is strictly below the empty string. -/
theorem strLtB_nil_right : ∀ a : PyStr, strLtB a [] = false
  | [] => rfl
  | _ :: _ => rfl

/-- Transitivity of the complement of strict string comparison. -/
theorem strLtB_le_trans : ∀ a b c : PyStr, strLtB b a = false → strLtB c b = false →
    strLtB c a = false
  | [], _, _ => by intro h1 h2; exact strLtB_nil_right _
  | _ :: _, [], _ => by intro h1 h2; simp [strLtB] at h1
  | _ :: _, _ :: _, [] => by intro h1 h2; simp [strLtB] at h2
  | x :: xs, y :: ys, z :: zs => by
    intro h1 h2
    simp only [strLtB] at h1 h2 ⊢
    split_ifs at h1 h2 ⊢ <;> try rfl
    all_goals try omega
    all_goals exact strLtB_le_trans xs ys zs h1 h2

/-- Two strings neither of which is strictly below the other are equal. -/
theorem strLtB_connex : ∀ a b : PyStr, strLtB a b = false → strLtB b a = false → a = b
  | [], [] => by intro h1 h2; rfl
  | [], _ :: _ => by intro h1 h2; simp [strLtB] at h1
  | _ :: _, [] => by intro h1 h2; simp [strLtB] at h2
  | x :: xs, y :: ys => by
    intro h1 h2
    simp only [strLtB] at h1 h2
    split_ifs at h1 h2 <;> try omega
    subst_vars
    rw [strLtB_connex xs ys h1 h2]

/-- Strict string comparison is asymmetric. -/
theorem strLtB_asymm : ∀ a b : PyStr, strLtB a b = true → strLtB b a = false
  | [], [] => by intro h; simp [strLtB] at h
  | [], _ :: _ => by intro h; rfl
  | _ :: _, [] => by intro h; simp [strLtB] at h
  | x :: xs, y :: ys => by
    intro h
    simp only [strLtB] at h ⊢
    split_ifs at h ⊢ <;> try rfl
    all_goals try omega
    all_goals exact strLtB_asymm xs ys h

/-- String `<=` is total. -/
theorem strLeB_total (a b : PyStr) : strLeB a b = true ∨ strLeB b a = true := by
  simp only [strLeB, Bool.not_eq_true']
  cases h1 : strLtB b a
  · left; rfl
  · right; exact strLtB_asymm b a h1

/-- String `<=` is transitive. -/
theorem strLeB_trans (a b c : PyStr) (h1 : strLeB a b = true) (h2 : strLeB b c = true) :
    strLeB a c = true := by
  simp only [strLeB, Bool.not_eq_true'] at h1 h2 ⊢
  exact strLtB_le_trans a b c h1 h2

instance : IsTotal AppWindow appWinLe :=
  ⟨fun w1 w2 => strLeB_total w1.rise_time_utc w2.rise_time_utc⟩

instance : IsTrans AppWindow appWinLe :=
  ⟨fun w1 w2 w3 h1 h2 => strLeB_trans w1.rise_time_utc w2.rise_time_utc w3.rise_time_utc h1 h2⟩

/-- On well-formed passes the service pair body cannot raise. -/
theorem svcPairWindow_ok (p1 p2 : SatellitePass) (h1 : wfPass p1) (h2 : wfPass p2) :
    svcPairWindow p1 p2 = .ok (svcPairPure p1 p2) := by
  obtain ⟨hr1, hs1⟩ := h1
  obtain ⟨hr2, hs2⟩ := h2
  rw [Option.isSome_iff_exists] at hr1 hs1 hr2 hs2
  obtain ⟨r1, hr1⟩ := hr1
  obtain ⟨s1, hs1⟩ := hs1
  obtain ⟨r2, hr2⟩ := hr2
  obtain ⟨s2, hs2⟩ := hs2
  simp [svcPairWindow, svcPairPure, hr1, hs1, hr2, hs2]

/-- On well-formed passes the service inner loop collects exactly the
windows of the overlapping pairs, in iteration order. -/
theorem svcInnerLoop_eq (p1 : SatellitePass) (B : List SatellitePass) (h1 : wfPass p1)
    (hB : wfList B) : svcInnerLoop p1 B = .ok (B.filterMap (svcPairPure p1)) := by
  induction B with
  | nil => rfl
  | cons p2 rest ih =>
    have hp2 : wfPass p2 := hB p2 (by simp)
    have hrest : wfList rest := fun p hp => hB p (by simp [hp])
    rw [svcInnerLoop, svcPairWindow_ok p1 p2 h1 hp2, ih hrest]
    rw [List.filterMap_cons]
    cases svcPairPure p1 p2 <;> rfl

/-- Master characterization of `SatelliteService.find_common_windows` on
well-formed inputs: it returns (without raising) the windows of all
overlapping pairs in nested-loop order. -/
theorem svcFindCommonWindows_eq (A B : List SatellitePass) (hA : wfList A) (hB : wfList B) :
    svcFindCommonWindows A B = .ok (A.flatMap fun p1 => B.filterMap (svcPairPure p1)) := by
  induction A with
  | nil => rfl
  | cons p1 rest ih =>
    have hp1 : wfPass p1 := hA p1 (by simp)
    have hrest : wfList rest := fun p hp => hA p (by simp [hp])
    rw [svcFindCommonWindows, svcInnerLoop_eq p1 B hp1 hB, ih hrest]
    rw [List.flatMap_cons]

/-- On well-formed passes the app pair body cannot raise. -/
theorem appPairWindow_ok (p1 p2 : SatellitePass) (r1 s1 : DT)
    (hr1 : parseDT p1.rise_time_utc = some r1) (hs1 : parseDT p1.set_time_utc = some s1)
    (h2 : wfPass p2) :
    appPairWindow p1 r1 s1 p2 = .ok (appPairPure p1 p2) := by
  obtain ⟨hr2, hs2⟩ := h2
  rw [Option.isSome_iff_exists] at hr2 hs2
  obtain ⟨r2, hr2⟩ := hr2
  obtain ⟨s2, hs2⟩ := hs2
  simp [appPairWindow, appPairPure, hr1, hs1, hr2, hs2]

/-- On well-formed passes the app inner loop collects exactly the windows
of the overlapping pairs, in iteration order. -/
theorem appInnerLoop_eq (p1 : SatellitePass) (r1 s1 : DT) (B : List SatellitePass)
    (hr1 : parseDT p1.rise_time_utc = some r1) (hs1 : parseDT p1.set_time_utc = some s1)
    (hB : wfList B) :
    appInnerLoop p1 r1 s1 B = .ok (B.filterMap (appPairPure p1)) := by
  induction B with
  | nil => rfl
  | cons p2 rest ih =>
    have hp2 : wfPass p2 := hB p2 (by simp)
    have hrest : wfList rest := fun p hp => hB p (by simp [hp])
    rw [appInnerLoop, appPairWindow_ok p1 p2 r1 s1 hr1 hs1 hp2, ih hrest]
    rw [List.filterMap_cons]
    cases appPairPure p1 p2 <;> rfl

/-- Master characterization of the app outer loop on well-formed inputs. -/
theorem appOuterLoop_eq (A B : List SatellitePass) (hA : wfList A) (hB : wfList B) :
    appOuterLoop A B = .ok (A.flatMap fun p1 => B.filterMap (appPairPure p1)) := by
  induction A with
  | nil => rfl
  | cons p1 rest ih =>
    have hp1 : wfPass p1 := hA p1 (by simp)
    have hrest : wfList rest := fun p hp => hA p (by simp [hp])
    obtain ⟨hr1, hs1⟩ := hp1
    rw [Option.isSome_iff_exists] at hr1 hs1
    obtain ⟨r1, hr1⟩ := hr1
    obtain ⟨s1, hs1⟩ := hs1
    rw [appOuterLoop, hr1, hs1]
    dsimp only
    rw [appInnerLoop_eq p1 r1 s1 B hr1 hs1 hB, ih hrest]
    rw [List.flatMap_cons]

/-- Master characterization of `SatelliteTracker.find_common_windows` on
well-formed inputs: the overlapping pairs' windows, sorted by rise
timestamp string. -/
theorem appFindCommonWindows_eq (A B : List SatellitePass) (hA : wfList A) (hB : wfList B) :
    appFindCommonWindows A B =
      .ok (List.insertionSort appWinLe (A.flatMap fun p1 => B.filterMap (appPairPure p1))) := by
  rw [appFindCommonWindows, appOuterLoop_eq A B hA hB]

/-- Two-digit zero-padded rendering is order-preserving below 100. -/
theorem pad2_lt (n m : Nat) (hn : n < 100) (hm : m < 100) :
    strLtB (pad2 n) (pad2 m) = decide (n < m) := by
  have h1 := Nat.div_add_mod n 10
  have h2 := Nat.div_add_mod m 10
  have hq1 : n / 10 < 10 := by omega
  have hq2 : m / 10 < 10 := by omega
  simp only [pad2, strLtB, Nat.mod_eq_of_lt hq1, Nat.mod_eq_of_lt hq2]
  split_ifs <;> simp_all <;> omega

/-- Two-digit zero-padded rendering is injective below 100. -/
theorem pad2_inj (n m : Nat) (hn : n < 100) (hm : m < 100) (h : pad2 n = pad2 m) : n = m := by
  have h1 := Nat.div_add_mod n 10
  have h2 := Nat.div_add_mod m 10
  have hq1 : n / 10 < 10 := by omega
  have hq2 : m / 10 < 10 := by omega
  simp only [pad2, Nat.mod_eq_of_lt hq1, Nat.mod_eq_of_lt hq2, List.cons.injEq, and_true] at h
  omega

/-- Comparison of concatenations with equal-length first segments. -/
theorem strLtB_append : ∀ (a b c d : PyStr), a.length = b.length →
    strLtB (a ++ c) (b ++ d) = (if a = b then strLtB c d else strLtB a b)
  | [], [], c, d => by intro h; simp
  | [], _ :: _, _, _ => by intro h; simp at h
  | _ :: _, [], _, _ => by intro h; simp at h
  | x :: xs, y :: ys, c, d => by
    intro hlen
    simp only [List.length_cons, Nat.add_right_cancel_iff] at hlen
    simp only [List.cons_append, strLtB, List.append_eq]
    by_cases hxy : x < y
    · simp [hxy, show ¬(x = y ∧ xs = ys) by omega, List.cons.injEq, strLtB]
    · by_cases heq : x = y
      · subst heq
        rw [strLtB_append xs ys c d hlen]
        by_cases hts : xs = ys
        · simp [hts, strLtB]
        · simp [hts, hxy, strLtB, List.cons.injEq]
      · simp [hxy, heq, List.cons.injEq, strLtB]

/-- Four-digit rendering splits into two two-digit blocks. -/
theorem pad4_eq (n : Nat) : pad4 n = pad2 (n / 100) ++ pad2 (n % 100) := by
  have h1 : n / 100 / 10 = n / 1000 := by rw [Nat.div_div_eq_div_mul]
  have h2 : n % 100 / 10 % 10 = n / 10 % 10 := by
    rw [show (100 : Nat) = 10 * 10 from rfl, Nat.mod_mul_right_div_self,
      Nat.mod_mod_of_dvd _ (dvd_refl 10)]
  have h3 : n % 100 % 10 = n % 10 := Nat.mod_mod_of_dvd n (by norm_num)
  simp [pad4, pad2, h1, h2, h3]

/-- Four-digit zero-padded rendering is order-preserving below 10000. -/
theorem pad4_lt (n m : Nat) (hn : n < 10000) (hm : m < 10000) :
    strLtB (pad4 n) (pad4 m) = decide (n < m) := by
  have hq1 : n / 100 < 100 := by omega
  have hq2 : m / 100 < 100 := by omega
  have hr1 : n % 100 < 100 := by omega
  have hr2 : m % 100 < 100 := by omega
  rw [pad4_eq n, pad4_eq m,
    strLtB_append (pad2 (n / 100)) (pad2 (m / 100)) (pad2 (n % 100)) (pad2 (m % 100)) rfl]
  by_cases hq : n / 100 = m / 100
  · have : pad2 (n / 100) = pad2 (m / 100) := by rw [hq]
    rw [if_pos this, pad2_lt _ _ hr1 hr2]
    exact decide_eq_decide.mpr (by omega)
  · have : pad2 (n / 100) ≠ pad2 (m / 100) := fun h => hq (pad2_inj _ _ hq1 hq2 h)
    rw [if_neg this, pad2_lt _ _ hq1 hq2]
    exact decide_eq_decide.mpr (by omega)

/-- Four-digit zero-padded rendering is injective below 10000. -/
theorem pad4_inj (n m : Nat) (hn : n < 10000) (hm : m < 10000) (h : pad4 n = pad4 m) :
    n = m := by
  rw [pad4_eq n, pad4_eq m] at h
  have hlen : (pad2 (n / 100)).length = (pad2 (m / 100)).length := rfl
  have h1 := List.append_inj_left h hlen
  have h2 := List.append_inj_right h hlen
  have e1 := pad2_inj _ _ (by omega) (by omega) h1
  have e2 := pad2_inj _ _ (by omega) (by omega) h2
  omega

/-- One two-digit block step of the fixed-width comparison. -/
theorem strLtB_pad2_level (x y : Nat) (hx : x < 100) (hy : y < 100) (r1 r2 : PyStr) :
    strLtB (pad2 x ++ r1) (pad2 y ++ r2) =
      (if x = y then strLtB r1 r2 else decide (x < y)) := by
  rw [strLtB_append (pad2 x) (pad2 y) r1 r2 rfl]
  by_cases h : x = y
  · simp [h]
  · have hne : pad2 x ≠ pad2 y := fun hh => h (pad2_inj _ _ hx hy hh)
    rw [if_neg hne, pad2_lt _ _ hx hy, if_neg h]

/-- The four-digit block step of the fixed-width comparison. -/
theorem strLtB_pad4_level (x y : Nat) (hx : x < 10000) (hy : y < 10000) (r1 r2 : PyStr) :
    strLtB (pad4 x ++ r1) (pad4 y ++ r2) =
      (if x = y then strLtB r1 r2 else decide (x < y)) := by
  rw [strLtB_append (pad4 x) (pad4 y) r1 r2 rfl]
  by_cases h : x = y
  · simp [h]
  · have hne : pad4 x ≠ pad4 y := fun hh => h (pad4_inj _ _ hx hy hh)
    rw [if_neg hne, pad4_lt _ _ hx hy, if_neg h]

/-- Equal separators are skipped by the comparison. -/
theorem strLtB_cons_same (c : Nat) (r1 r2 : PyStr) :
    strLtB (c :: r1) (c :: r2) = strLtB r1 r2 := by simp [strLtB]

/-- Final two-digit block comparison with no remainder. -/
theorem pad2_lt_self (x y : Nat) (hx : x < 100) (hy : y < 100) :
    strLtB (pad2 x) (pad2 y) = (if x = y then false else decide (x < y)) := by
  rw [pad2_lt _ _ hx hy]
  by_cases h : x = y
  · simp [h]
  · simp [h]

/-- Rendered fixed-width timestamps compare exactly as their keys: on
in-range fields, lexicographic string order is chronological order. -/
theorem renderDT_lt (a b : DT) (ha : validW a) (hb : validW b) :
    strLtB (renderDT a) (renderDT b) = decide (a.key < b.key) := by
  obtain ⟨hy1, hmo1, hd1, hh1, hmi1, hs1⟩ := ha
  obtain ⟨hy2, hmo2, hd2, hh2, hmi2, hs2⟩ := hb
  rw [renderDT, renderDT]
  rw [strLtB_pad4_level a.year b.year (by omega) (by omega)]
  rw [strLtB_cons_same]
  rw [strLtB_pad2_level a.month b.month (by omega) (by omega)]
  rw [strLtB_cons_same]
  rw [strLtB_pad2_level a.day b.day (by omega) (by omega)]
  rw [strLtB_cons_same]
  rw [strLtB_pad2_level a.hour b.hour (by omega) (by omega)]
  rw [strLtB_cons_same]
  rw [strLtB_pad2_level a.minute b.minute (by omega) (by omega)]
  rw [strLtB_cons_same]
  rw [pad2_lt_self a.second b.second (by omega) (by omega)]
  simp only [DT.key]
  split_ifs <;>
    first
      | (symm; rw [decide_eq_false_iff_not]; omega)
      | exact decide_eq_decide.mpr (by constructor <;> intro hlt <;> omega)

/-- String `<=` on rendered timestamps is key order. -/
theorem renderDT_le (a b : DT) (ha : validW a) (hb : validW b) :
    (strLeB (renderDT a) (renderDT b) = true) ↔ a.key ≤ b.key := by
  simp only [strLeB, Bool.not_eq_true', renderDT_lt b a hb ha, decide_eq_false_iff_not]
  omega

/-- The key is injective on in-range fields. -/
theorem key_inj (a b : DT) (ha : validW a) (hb : validW b) (h : a.key = b.key) : a = b := by
  obtain ⟨y1, mo1, d1, h1, mi1, s1⟩ := a
  obtain ⟨y2, mo2, d2, h2, mi2, s2⟩ := b
  simp only [DT.key] at h
  obtain ⟨hv1, hv2, hv3, hv4, hv5, hv6⟩ := ha
  obtain ⟨hw1, hw2, hw3, hw4, hw5, hw6⟩ := hb
  simp only at hv1 hv2 hv3 hv4 hv5 hv6 hw1 hw2 hw3 hw4 hw5 hw6
  simp only [DT.mk.injEq]
  omega

/-- Every month has at most 31 days. -/
theorem daysInMonth_le (y m : Nat) : daysInMonth y m ≤ 31 := by
  rw [daysInMonth]
  split_ifs <;> omega

/-- Every successfully parsed timestamp has in-range fields. -/
theorem parseDT_validW (s : PyStr) (d : DT) (h : parseDT s = some d) : validW d := by
  unfold parseDT at h
  split at h
  case h_2 => exact absurd h (by simp)
  case h_1 y1 y2 y3 y4 s1 o1 o2 s2 a1 a2 s3 h1 h2 s4 n1 n2 s5 c1 c2 =>
    dsimp only at h
    split_ifs at h with hg
    · simp only [Option.some.injEq] at h
      subst h
      simp only [Bool.and_eq_true, decide_eq_true_eq, isDigit] at hg
      have hdm := daysInMonth_le ((((y1 - 48) * 10 + (y2 - 48)) * 10 + (y3 - 48)) * 10 + (y4 - 48))
        ((o1 - 48) * 10 + (o2 - 48))
      simp only [validW]
      refine ⟨by omega, by omega, by omega, by omega, by omega, by omega⟩

/-- Members of a complete triple are members of the list. -/
theorem chunk3_mem_elems {α : Type} : ∀ (l : List α) (a b c : α),
    (a, b, c) ∈ chunk3 l → a ∈ l ∧ b ∈ l ∧ c ∈ l
  | [], a, b, c => by intro h; simp [chunk3] at h
  | [x], a, b, c => by intro h; simp [chunk3] at h
  | [x, y], a, b, c => by intro h; simp [chunk3] at h
  | x :: y :: z :: rest, a, b, c => by
    intro h
    rw [chunk3, List.mem_cons] at h
    rcases h with h | h
    · simp only [Prod.mk.injEq] at h
      obtain ⟨h1, h2, h3⟩ := h
      subst h1; subst h2; subst h3
      simp
    · have := chunk3_mem_elems rest a b c h
      simp [this.1, this.2.1, this.2.2]

/-- A chain relation holds inside every complete triple of a chained list. -/
theorem chunk3_chain {α : Type} {R : α → α → Prop} : ∀ (l : List α) (a b c : α),
    List.Chain' R l → (a, b, c) ∈ chunk3 l → R a b ∧ R b c
  | [], a, b, c => by intro hc h; simp [chunk3] at h
  | [x], a, b, c => by intro hc h; simp [chunk3] at h
  | [x, y], a, b, c => by intro hc h; simp [chunk3] at h
  | x :: y :: z :: rest, a, b, c => by
    intro hc h
    rw [chunk3, List.mem_cons] at h
    rcases h with h | h
    · simp only [Prod.mk.injEq] at h
      obtain ⟨h1, h2, h3⟩ := h
      subst h1; subst h2; subst h3
      rw [List.chain'_cons] at hc
      obtain ⟨h1, hc⟩ := hc
      rw [List.chain'_cons] at hc
      exact ⟨h1, hc.1⟩
    · exact chunk3_chain rest a b c (hc.tail.tail.tail) h

/-- A chain on the time list lifts to the zipped event/time list. -/
theorem zip_chain_snd (ev : List Nat) (ts : List DT) (hlen : ts.length = ev.length)
    {R : DT → DT → Prop} (hc : List.Chain' R ts) :
    List.Chain' (fun x y : Nat × DT => R x.2 y.2) (ev.zip ts) := by
  have hmap : (ev.zip ts).map Prod.snd = ts := List.map_snd_zip ev ts (by omega)
  rw [← hmap] at hc
  exact (List.chain'_map Prod.snd).mp hc

/-- Refinement of the service pair body against the spec formulas: a
window is emitted exactly on overlap, and then it is the spec window. -/
theorem svcPairPure_eq (p1 p2 : SatellitePass) (r1 s1 r2 s2 : DT)
    (hr1 : parseDT p1.rise_time_utc = some r1) (hs1 : parseDT p1.set_time_utc = some s1)
    (hr2 : parseDT p2.rise_time_utc = some r2) (hs2 : parseDT p2.set_time_utc = some s2) :
    svcPairPure p1 p2 =
      if overlapDT r1 s1 r2 s2 then
        some (specWindow p1.max_elevation_degrees p2.max_elevation_degrees r1 s1 r2 s2)
      else none := by
  rw [svcPairPure, svcPairWindow, hr1, hs1, hr2, hs2]
  simp only [overlapDT, specWindow]

/-- The later of two in-range datetimes does not depend on the order. -/
theorem dtMax_comm (a b : DT) (ha : validW a) (hb : validW b) : dtMax a b = dtMax b a := by
  rw [dtMax, dtMax]
  rcases Nat.lt_trichotomy a.key b.key with h | h | h
  · rw [if_pos h, if_neg (by omega)]
  · rw [if_neg (by omega), if_neg (by omega)]
    exact key_inj a b ha hb h
  · rw [if_neg (by omega), if_pos h]

/-- The earlier of two in-range datetimes does not depend on the order. -/
theorem dtMin_comm (a b : DT) (ha : validW a) (hb : validW b) : dtMin a b = dtMin b a := by
  rw [dtMin, dtMin]
  rcases Nat.lt_trichotomy a.key b.key with h | h | h
  · rw [if_neg (by omega), if_pos h]
  · rw [if_neg (by omega), if_neg (by omega)]
    exact key_inj a b ha hb h
  · rw [if_pos h, if_neg (by omega)]

/-- The service pair body is symmetric on well-formed passes. -/
theorem svcPairPure_comm (p1 p2 : SatellitePass) (h1 : wfPass p1) (h2 : wfPass p2) :
    svcPairPure p1 p2 = svcPairPure p2 p1 := by
  obtain ⟨hr1, hs1⟩ := h1
  obtain ⟨hr2, hs2⟩ := h2
  rw [Option.isSome_iff_exists] at hr1 hs1 hr2 hs2
  obtain ⟨r1, hr1⟩ := hr1
  obtain ⟨s1, hs1⟩ := hs1
  obtain ⟨r2, hr2⟩ := hr2
  obtain ⟨s2, hs2⟩ := hs2
  rw [svcPairPure_eq p1 p2 r1 s1 r2 s2 hr1 hs1 hr2 hs2,
    svcPairPure_eq p2 p1 r2 s2 r1 s1 hr2 hs2 hr1 hs1]
  have hv1 := parseDT_validW _ _ hr1
  have hv2 := parseDT_validW _ _ hs1
  have hv3 := parseDT_validW _ _ hr2
  have hv4 := parseDT_validW _ _ hs2
  by_cases hov : overlapDT r1 s1 r2 s2
  · rw [if_pos hov, if_pos (by simp only [overlapDT] at hov ⊢; omega)]
    rw [specWindow, specWindow, dtMax_comm r1 r2 hv1 hv3, dtMin_comm s1 s2 hv2 hv4]
    simp [min_comm]
  · rw [if_neg hov, if_neg (by simp only [overlapDT] at hov ⊢; omega)]

/-- Shuffling an appended block across a permutation. -/
theorem perm_shuffle {γ : Type} (X F G Y : List γ) (ih : List.Perm Y (F ++ G)) :
    List.Perm (X ++ Y) (F ++ (X ++ G)) := by
  refine (List.Perm.append_left X ih).trans ?_
  rw [← List.append_assoc, ← List.append_assoc]
  exact List.Perm.append_right G List.perm_append_comm

/-- Splitting the optional heads out of a flatMap, up to permutation. -/
theorem flatMap_optCons_perm {β γ : Type} (B : List β) (f : β → Option γ) (g : β → List γ) :
    List.Perm (B.flatMap fun b => optCons (f b) (g b)) (B.filterMap f ++ B.flatMap g) := by
  induction B with
  | nil => simp
  | cons b B ih =>
    rw [List.flatMap_cons, List.filterMap_cons, List.flatMap_cons]
    cases hfb : f b with
    | none =>
      simp only [optCons]
      exact perm_shuffle (g b) (B.filterMap f) (B.flatMap g) _ ih
    | some x =>
      simp only [optCons, List.cons_append]
      exact List.Perm.cons x (perm_shuffle (g b) (B.filterMap f) (B.flatMap g) _ ih)

/-- Exchanging the loop order of a nested flatMap/filterMap is a
permutation. -/
theorem flatMap_filterMap_swap {α β γ : Type} (A : List α) (B : List β) (F : α → β → Option γ) :
    List.Perm (A.flatMap fun a => B.filterMap (F a))
      (B.flatMap fun b => A.filterMap fun a => F a b) := by
  induction A with
  | nil => simp
  | cons a A ih =>
    rw [List.flatMap_cons]
    have hfun : (fun b => List.filterMap (fun a' => F a' b) (a :: A)) =
        fun b => optCons (F a b) (A.filterMap fun a' => F a' b) := by
      funext b
      rw [List.filterMap_cons]
      cases F a b <;> rfl
    rw [hfun]
    refine List.Perm.trans ?_ (flatMap_optCons_perm B (F a) _).symm
    exact List.Perm.append_left _ ih

/-- Projecting away the back-references of the app pair body yields the
service pair body. -/
theorem appPairPure_core (p1 p2 : SatellitePass) :
    (appPairPure p1 p2).map coreOf = svcPairPure p1 p2 := by
  cases h1 : parseDT p1.rise_time_utc <;> cases h2 : parseDT p1.set_time_utc <;>
    cases h3 : parseDT p2.rise_time_utc <;> cases h4 : parseDT p2.set_time_utc <;>
      simp only [appPairPure, appPairWindow, svcPairPure, svcPairWindow, h1, h2, h3, h4,
        Option.map_none, Option.map_some] <;> try rfl
  split_ifs <;> rfl

/-- The unsorted service window collection is permutation-invariant under
swapping the two stations. -/
theorem svcWindows_swap_perm (A B : List SatellitePass) (hA : wfList A) (hB : wfList B) :
    List.Perm (A.flatMap fun p1 => B.filterMap (svcPairPure p1))
      (B.flatMap fun p2 => A.filterMap (svcPairPure p2)) := by
  refine (flatMap_filterMap_swap A B fun p1 p2 => svcPairPure p1 p2).trans ?_
  have h : ∀ b ∈ B, (A.filterMap fun a => svcPairPure a b) = A.filterMap (svcPairPure b) := by
    intro b hb
    exact List.filterMap_congr fun a ha => svcPairPure_comm a b (hA a ha) (hB b hb)
  rw [List.flatMap_congr h]

/-- The unsorted app window collection is, after projecting away the
back-references, permutation-invariant under swapping the stations. -/
theorem appWindows_swap_perm (A B : List SatellitePass) (hA : wfList A) (hB : wfList B) :
    List.Perm ((A.flatMap fun p1 => B.filterMap (appPairPure p1)).map coreOf)
      ((B.flatMap fun p2 => A.filterMap (appPairPure p2)).map coreOf) := by
  rw [List.map_flatMap, List.map_flatMap]
  have h1 : ∀ a ∈ A, (List.map coreOf (B.filterMap (appPairPure a))) =
      B.filterMap (svcPairPure a) := by
    intro a ha
    rw [List.map_filterMap]
    exact List.filterMap_congr fun b hb => appPairPure_core a b
  have h2 : ∀ b ∈ B, (List.map coreOf (A.filterMap (appPairPure b))) =
      A.filterMap (svcPairPure b) := by
    intro b hb
    rw [List.map_filterMap]
    exact List.filterMap_congr fun a ha => appPairPure_core b a
  rw [List.flatMap_congr h1, List.flatMap_congr h2]
  exact svcWindows_swap_perm A B hA hB

/-- Every window produced by the app inner loop comes from one pass of the
second station. -/
theorem appInnerLoop_mem (p1 : SatellitePass) (r1 s1 : DT) :
    ∀ (B : List SatellitePass) (ws : List AppWindow),
      appInnerLoop p1 r1 s1 B = .ok ws →
      ∀ w ∈ ws, ∃ p2 ∈ B, appPairWindow p1 r1 s1 p2 = .ok (some w)
  | [], ws => by
    intro h w hw
    simp only [appInnerLoop, Except.ok.injEq] at h
    subst h
    simp at hw
  | p2 :: rest, ws => by
    intro h w hw
    rw [appInnerLoop] at h
    cases hpw : appPairWindow p1 r1 s1 p2 with
    | error e => rw [hpw] at h; exact absurd h (by simp)
    | ok wopt =>
      rw [hpw] at h
      cases hil : appInnerLoop p1 r1 s1 rest with
      | error e => rw [hil] at h; exact absurd h (by simp)
      | ok ws2 =>
        rw [hil] at h
        simp only [Except.ok.injEq] at h
        subst h
        cases wopt with
        | none =>
          obtain ⟨q, hq, hqw⟩ := appInnerLoop_mem p1 r1 s1 rest ws2 hil w hw
          exact ⟨q, by simp [hq], hqw⟩
        | some win =>
          rcases List.mem_cons.mp hw with hww | hww
          · subst hww
            exact ⟨p2, by simp, hpw⟩
          · obtain ⟨q, hq, hqw⟩ := appInnerLoop_mem p1 r1 s1 rest ws2 hil w hww
            exact ⟨q, by simp [hq], hqw⟩

/-- Every window produced by the app nested loop comes from one pair of
passes. -/
theorem appOuterLoop_mem : ∀ (A B : List SatellitePass) (l : List AppWindow),
    appOuterLoop A B = .ok l →
    ∀ w ∈ l, ∃ p1 ∈ A, ∃ p2 ∈ B, appPairPure p1 p2 = some w
  | [], B, l => by
    intro h w hw
    simp only [appOuterLoop, Except.ok.injEq] at h
    subst h
    simp at hw
  | p1 :: rest, B, l => by
    intro h w hw
    rw [appOuterLoop] at h
    cases hr1 : parseDT p1.rise_time_utc with
    | none => rw [hr1] at h; exact absurd h (by simp)
    | some r1 =>
      rw [hr1] at h
      cases hs1 : parseDT p1.set_time_utc with
      | none => rw [hs1] at h; exact absurd h (by simp)
      | some s1 =>
        rw [hs1] at h
        dsimp only at h
        cases hil : appInnerLoop p1 r1 s1 B with
        | error e => rw [hil] at h; exact absurd h (by simp)
        | ok ws1 =>
          rw [hil] at h
          cases hol : appOuterLoop rest B with
          | error e => rw [hol] at h; exact absurd h (by simp)
          | ok ws2 =>
            rw [hol] at h
            simp only [Except.ok.injEq] at h
            subst h
            rcases List.mem_append.mp hw with hww | hww
            · obtain ⟨p2, hp2, hpw⟩ := appInnerLoop_mem p1 r1 s1 B ws1 hil w hww
              refine ⟨p1, by simp, p2, hp2, ?_⟩
              rw [appPairPure, hr1, hs1]
              dsimp only
              rw [hpw]
            · obtain ⟨q1, hq1, q2, hq2, hqw⟩ := appOuterLoop_mem rest B ws2 hol w hww
              exact ⟨q1, by simp [hq1], q2, hq2, hqw⟩

/-- A window built by the app pair body carries the two contributing
passes verbatim in its back-reference fields. -/
theorem appPairPure_backrefs (p1 p2 : SatellitePass) (w : AppWindow)
    (h : appPairPure p1 p2 = some w) :
    w.station1_rise = p1.rise_time_utc ∧ w.station1_set = p1.set_time_utc ∧
    w.station1_max_el = p1.max_elevation_degrees ∧ w.station2_rise = p2.rise_time_utc ∧
    w.station2_set = p2.set_time_utc ∧ w.station2_max_el = p2.max_elevation_degrees := by
  rw [appPairPure] at h
  cases hr1 : parseDT p1.rise_time_utc with
  | none => rw [hr1] at h; exact absurd h (by simp)
  | some r1 =>
    cases hs1 : parseDT p1.set_time_utc with
    | none => rw [hr1, hs1] at h; exact absurd h (by simp)
    | some s1 =>
      rw [hr1, hs1] at h
      dsimp only at h
      rw [appPairWindow] at h
      cases hr2 : parseDT p2.rise_time_utc with
      | none => rw [hr2] at h; exact absurd h (by simp)
      | some r2 =>
        rw [hr2] at h
        cases hs2 : parseDT p2.set_time_utc with
        | none => rw [hs2] at h; exact absurd h (by simp)
        | some s2 =>
          rw [hs2] at h
          dsimp only at h
          split_ifs at h with hov
          simp only [Option.some.injEq] at h
          subst h
          exact ⟨rfl, rfl, rfl, rfl, rfl, rfl⟩

/-- C10: the two pass-finder implementations are equivalent: on every
propagator event sequence, event-time list and culmination-altitude
oracle, `SatelliteService.find_passes` and `SatelliteTracker.find_passes`
return the same pass sequence, with identical rise/culmination/set
timestamp strings and identical max elevations rounded to 2 decimals. -/
theorem c10_find_passes_equivalent (events : List Nat) (times : List DT) (altDeg : DT → Rat) :
    svcFindPasses events times altDeg = appFindPasses events times altDeg :=
  findPassesFrom_agree events times altDeg 0

/-- C6: the pass finder performs no out-of-bounds access: with parallel
event/time arrays it returns `some` list (never an index error), namely the
accepted complete leading triples with incomplete trailing groups skipped;
an event sequence of length 2 yields zero passes and zero events yield the
empty result. -/
theorem c6_find_passes_no_out_of_bounds (events : List Nat) (times : List DT)
    (altDeg : DT → Rat) :
    (times.length = events.length →
      svcFindPasses events times altDeg =
        some ((chunk3 (events.zip times)).filterMap (acceptTriple altDeg)) ∧
      appFindPasses events times altDeg =
        some ((chunk3 (events.zip times)).filterMap (acceptTriple altDeg))) ∧
    (events.length = 2 → svcFindPasses events times altDeg = some [] ∧
      appFindPasses events times altDeg = some []) ∧
    (events = [] → svcFindPasses events times altDeg = some [] ∧
      appFindPasses events times altDeg = some []) := by
  refine ⟨fun hlen => ?_, fun h2 => ?_, fun h0 => ?_⟩
  · have hs := svcFindPassesFrom_eq events times altDeg hlen 0
    have ha := appFindPassesFrom_eq events times altDeg hlen 0
    simp only [List.drop_zero] at hs ha
    exact ⟨hs, ha⟩
  · constructor
    · rw [svcFindPasses, svcFindPassesFrom, dif_neg (by omega)]
    · rw [appFindPasses, appFindPassesFrom, dif_neg (by omega)]
  · subst h0
    constructor
    · rw [svcFindPasses, svcFindPassesFrom, dif_neg (by simp)]
    · rw [appFindPasses, appFindPassesFrom, dif_neg (by simp)]

/-- Witness for C6 at concrete inputs: a length-5 event sequence (its
trailing incomplete pair skipped) and a length-2 event sequence. -/
theorem c6_witness :
    (svcFindPasses [0, 1, 2, 0, 1] [mkT 0, mkT 1, mkT 2, mkT 3, mkT 4] altZero =
      some ((chunk3 (([0, 1, 2, 0, 1] : List Nat).zip [mkT 0, mkT 1, mkT 2, mkT 3, mkT 4])).filterMap
        (acceptTriple altZero))) ∧
    (svcFindPasses [0, 1] [mkT 0, mkT 1] altZero = some [] ∧
      appFindPasses [0, 1] [mkT 0, mkT 1] altZero = some []) :=
  ⟨((c6_find_passes_no_out_of_bounds [0, 1, 2, 0, 1] [mkT 0, mkT 1, mkT 2, mkT 3, mkT 4]
      altZero).1 (by decide)).1,
    (c6_find_passes_no_out_of_bounds [0, 1] [mkT 0, mkT 1] altZero).2.1 (by decide)⟩

/-- C4: the pass finder walks the events in fixed groups of three and a
group yields a pass exactly when its tags are RISE, CULMINATE, SET
(`0, 1, 2`) in order; any other pattern yields no pass at all. -/
theorem c4_complete_triple_pattern (events : List Nat) (times : List DT) (altDeg : DT → Rat)
    (hlen : times.length = events.length) :
    svcFindPasses events times altDeg =
      some ((chunk3 (events.zip times)).filterMap (acceptTriple altDeg)) ∧
    appFindPasses events times altDeg =
      some ((chunk3 (events.zip times)).filterMap (acceptTriple altDeg)) ∧
    (∀ t : (Nat × DT) × (Nat × DT) × (Nat × DT),
      ¬(t.1.1 = 0 ∧ t.2.1.1 = 1 ∧ t.2.2.1 = 2) → acceptTriple altDeg t = none) ∧
    (∀ t : (Nat × DT) × (Nat × DT) × (Nat × DT),
      t.1.1 = 0 ∧ t.2.1.1 = 1 ∧ t.2.2.1 = 2 →
      acceptTriple altDeg t = some
        { rise_time_utc := renderDT t.1.2,
          culmination_time_utc := renderDT t.2.1.2,
          set_time_utc := renderDT t.2.2.2,
          max_elevation_degrees := round2 (altDeg t.2.1.2) }) := by
  have hs := svcFindPassesFrom_eq events times altDeg hlen 0
  have ha := appFindPassesFrom_eq events times altDeg hlen 0
  simp only [List.drop_zero] at hs ha
  refine ⟨hs, ha, fun t ht => ?_, fun t ht => ?_⟩
  · rw [acceptTriple, if_neg ht]
  · rw [acceptTriple, if_pos ht]

/-- Witness for C4: a six-event sequence whose second group has the
malformed pattern CULMINATE, SET, RISE and is dropped, leaving one pass. -/
theorem c4_witness :
    svcFindPasses [0, 1, 2, 1, 2, 0] [mkT 0, mkT 1, mkT 2, mkT 3, mkT 4, mkT 5] altZero =
      some ((chunk3 (([0, 1, 2, 1, 2, 0] : List Nat).zip
        [mkT 0, mkT 1, mkT 2, mkT 3, mkT 4, mkT 5])).filterMap (acceptTriple altZero)) ∧
    ((chunk3 (([0, 1, 2, 1, 2, 0] : List Nat).zip
      [mkT 0, mkT 1, mkT 2, mkT 3, mkT 4, mkT 5])).filterMap (acceptTriple altZero)).length = 1 :=
  ⟨(c4_complete_triple_pattern [0, 1, 2, 1, 2, 0] [mkT 0, mkT 1, mkT 2, mkT 3, mkT 4, mkT 5]
      altZero (by decide)).1,
    by decide⟩

/-- C7: assuming the propagator's event timestamps are chronologically
nondecreasing (with in-range fields, so the fixed-width rendering is
order-faithful), every pass returned by either pass finder satisfies
rise <= culmination <= set under the lexicographic order of the timestamp
strings. -/
theorem c7_pass_time_ordering (events : List Nat) (times : List DT) (altDeg : DT → Rat)
    (hlen : times.length = events.length) (hvalid : ∀ t ∈ times, validW t)
    (hchain : List.Chain' (fun a b : DT => a.key ≤ b.key) times) (l : List SatellitePass)
    (hl : svcFindPasses events times altDeg = some l ∨
      appFindPasses events times altDeg = some l) :
    ∀ p ∈ l, strLeB p.rise_time_utc p.culmination_time_utc = true ∧
      strLeB p.culmination_time_utc p.set_time_utc = true := by
  have hsvc : svcFindPasses events times altDeg = some l := by
    rcases hl with h | h
    · exact h
    · rw [svcFindPasses, findPassesFrom_agree]
      exact h
  have heq := svcFindPassesFrom_eq events times altDeg hlen 0
  simp only [List.drop_zero] at heq
  rw [svcFindPasses, heq, Option.some.injEq] at hsvc
  subst hsvc
  intro p hp
  rw [List.mem_filterMap] at hp
  obtain ⟨t, ht, hacc⟩ := hp
  obtain ⟨a, b, c⟩ := t
  rw [acceptTriple] at hacc
  split_ifs at hacc with hpat
  simp only [Option.some.injEq] at hacc
  subst hacc
  have hchz := zip_chain_snd events times hlen hchain
  have hord := chunk3_chain (R := fun x y : Nat × DT => x.2.key ≤ y.2.key) _ a b c hchz ht
  have hmem := chunk3_mem_elems _ a b c ht
  have hva : validW a.2 := hvalid a.2 (List.of_mem_zip hmem.1).2
  have hvb : validW b.2 := hvalid b.2 (List.of_mem_zip hmem.2.1).2
  have hvc : validW c.2 := hvalid c.2 (List.of_mem_zip hmem.2.2).2
  exact ⟨(renderDT_le a.2 b.2 hva hvb).mpr hord.1, (renderDT_le b.2 c.2 hvb hvc).mpr hord.2⟩

/-- Witness for C7 at a single concrete in-order pass. -/
theorem c7_witness :
    strLeB (strOfLit "2024-06-15 10:00:00") (strOfLit "2024-06-15 10:01:00") = true ∧
    strLeB (strOfLit "2024-06-15 10:01:00") (strOfLit "2024-06-15 10:02:00") = true :=
  c7_pass_time_ordering [0, 1, 2] [mkT 0, mkT 1, mkT 2] altZero (by decide) (by decide)
    (by simp [List.chain'_cons]; decide) _
    (Or.inl (by
      have h := svcFindPassesFrom_eq [0, 1, 2] [mkT 0, mkT 1, mkT 2] altZero (by decide) 0
      simpa [svcFindPasses] using h))
    ⟨strOfLit "2024-06-15 10:00:00", strOfLit "2024-06-15 10:01:00",
      strOfLit "2024-06-15 10:02:00", 0⟩ (by decide)

/-- C5: on the spec's Scenario A inputs both implementations return
exactly one CommonWindow with rise 10:02:00, set 10:10:00, elevation
summary 40.0, duration 480 whole seconds and duration string `8m 0s`. -/
theorem c5_scenario_a :
    svcFindCommonWindows [scnPass1] [scnPass2] = .ok [scnWindow] ∧
    appFindCommonWindows [scnPass1] [scnPass2] = .ok [scnAppWindow] :=
  ⟨by decide, by decide⟩

/-- A no-overlap pair of well-formed passes yields no window. -/
theorem svcPairPure_none (p1 p2 : SatellitePass) (h1 : wfPass p1) (h2 : wfPass p2)
    (h : pairOverlapsB p1 p2 = false) : svcPairPure p1 p2 = none := by
  obtain ⟨hr1, hs1⟩ := h1
  obtain ⟨hr2, hs2⟩ := h2
  rw [Option.isSome_iff_exists] at hr1 hs1 hr2 hs2
  obtain ⟨r1, hr1⟩ := hr1
  obtain ⟨s1, hs1⟩ := hs1
  obtain ⟨r2, hr2⟩ := hr2
  obtain ⟨s2, hs2⟩ := hs2
  rw [pairOverlapsB, hr1, hs1, hr2, hs2] at h
  rw [svcPairPure_eq p1 p2 r1 s1 r2 s2 hr1 hs1 hr2 hs2, if_neg (by simpa using h)]

/-- C9 counterexample: the app implementation parses station-1 timestamps
even when the station-2 pass list is empty, so an empty second list does
not guarantee an exception-free empty result as the claim states: with a
malformed station-1 pass it raises `ValueError` instead of returning
an empty sequence. -/
theorem c9_counterexample : appFindCommonWindows [badPass] [] = .error () := by decide

/-- C9 amended: an empty pass list on either side gives the empty window
list without an exception for the service implementation unconditionally,
and for the app implementation whenever the station-1 timestamps are
well-formed (the app outer loop parses them even when the station-2 list
is empty); with well-formed timestamps and no overlapping pair, both
implementations return the empty list without an exception. -/
theorem c9_empty_or_disjoint_empty_result :
    (∀ B, svcFindCommonWindows [] B = .ok []) ∧
    (∀ A, svcFindCommonWindows A [] = .ok []) ∧
    (∀ B, appFindCommonWindows [] B = .ok []) ∧
    (∀ A, wfList A → appFindCommonWindows A [] = .ok []) ∧
    (∀ A B, wfList A → wfList B → (∀ p1 ∈ A, ∀ p2 ∈ B, pairOverlapsB p1 p2 = false) →
      svcFindCommonWindows A B = .ok [] ∧ appFindCommonWindows A B = .ok []) := by
  refine ⟨fun B => rfl, fun A => ?_, fun B => rfl, fun A hA => ?_, fun A B hA hB hno => ?_⟩
  · induction A with
    | nil => rfl
    | cons p1 rest ih =>
      rw [svcFindCommonWindows]
      rw [show svcInnerLoop p1 [] = .ok [] from rfl, ih]
      rfl
  · rw [appFindCommonWindows, appOuterLoop_eq A [] hA (fun p hp => absurd hp (List.not_mem_nil p))]
    rw [show (A.flatMap fun p1 => List.filterMap (appPairPure p1) []) = [] by simp]
    rfl
  · have hsvc : (A.flatMap fun p1 => B.filterMap (svcPairPure p1)) = [] := by
      rw [List.flatMap_eq_nil_iff]
      intro p1 hp1
      rw [List.filterMap_eq_nil_iff]
      intro p2 hp2
      exact svcPairPure_none p1 p2 (hA p1 hp1) (hB p2 hp2) (hno p1 hp1 p2 hp2)
    have happ : (A.flatMap fun p1 => B.filterMap (appPairPure p1)) = [] := by
      rw [List.flatMap_eq_nil_iff]
      intro p1 hp1
      rw [List.filterMap_eq_nil_iff]
      intro p2 hp2
      have hc := appPairPure_core p1 p2
      rw [svcPairPure_none p1 p2 (hA p1 hp1) (hB p2 hp2) (hno p1 hp1 p2 hp2),
        Option.map_eq_none'] at hc
      exact hc
    constructor
    · rw [svcFindCommonWindows_eq A B hA hB, hsvc]
    · rw [appFindCommonWindows_eq A B hA hB, happ]
      rfl

/-- Witness for C9 on Scenario B: two disjoint well-formed passes give the
empty window list in both implementations. -/
theorem c9_witness :
    svcFindCommonWindows [scnPass1] [scnLatePass] = .ok [] ∧
    appFindCommonWindows [scnPass1] [scnLatePass] = .ok [] :=
  c9_empty_or_disjoint_empty_result.2.2.2.2 [scnPass1] [scnLatePass] (by decide) (by decide)
    (by decide)

/-- C8: swapping the two stations leaves the produced window collection
unchanged up to order: for the service implementation the window lists are
permutations of each other, and for the app implementation the lists agree
up to order after projecting away the station-1/station-2 back-reference
fields (which swap roles). -/
theorem c8_swap_stations (A B : List SatellitePass) (hA : wfList A) (hB : wfList B) :
    (∀ l1 l2, svcFindCommonWindows A B = .ok l1 → svcFindCommonWindows B A = .ok l2 →
      List.Perm l1 l2) ∧
    (∀ la1 la2, appFindCommonWindows A B = .ok la1 → appFindCommonWindows B A = .ok la2 →
      List.Perm (la1.map coreOf) (la2.map coreOf)) := by
  constructor
  · intro l1 l2 h1 h2
    rw [svcFindCommonWindows_eq A B hA hB, Except.ok.injEq] at h1
    rw [svcFindCommonWindows_eq B A hB hA, Except.ok.injEq] at h2
    subst h1
    subst h2
    exact svcWindows_swap_perm A B hA hB
  · intro la1 la2 h1 h2
    rw [appFindCommonWindows_eq A B hA hB, Except.ok.injEq] at h1
    rw [appFindCommonWindows_eq B A hB hA, Except.ok.injEq] at h2
    subst h1
    subst h2
    refine (List.Perm.map coreOf (List.perm_insertionSort appWinLe _)).trans ?_
    refine (appWindows_swap_perm A B hA hB).trans ?_
    exact (List.Perm.map coreOf (List.perm_insertionSort appWinLe _)).symm

/-- Witness for C8 on the Scenario A singletons: both orders give the same
single window. -/
theorem c8_witness : List.Perm [scnWindow] [scnWindow] :=
  (c8_swap_stations [scnPass1] [scnPass2] (by decide) (by decide)).1 [scnWindow] [scnWindow]
    (by decide) (by decide)

/-- C2 counterexample: the service implementation returns windows in
nested-loop order, not sorted by common rise: with the station-1 passes
listed late-first, the result's rise times are 14:00:00 then 10:00:00,
which is descending. -/
theorem c2_counterexample :
    (svcFindCommonWindows [cxLate, scnPass1] [cxWide]).map
        (fun l => l.map SvcWindow.rise_time_utc) =
      .ok [strOfLit "2024-06-15 14:00:00", strOfLit "2024-06-15 10:00:00"] ∧
    strLtB (strOfLit "2024-06-15 10:00:00") (strOfLit "2024-06-15 14:00:00") = true := by
  exact ⟨by decide, by decide⟩

/-- C2 amended: the app implementation always returns its windows sorted
ascending by the common rise timestamp string (for the fixed-width
timestamps the code produces, that order is chronological); the service
implementation returns them in nested-loop order, which need not be
sorted. -/
theorem c2_app_sorted_by_rise (A B : List SatellitePass) (l : List AppWindow)
    (h : appFindCommonWindows A B = .ok l) : List.Sorted appWinLe l := by
  rw [appFindCommonWindows] at h
  cases ho : appOuterLoop A B with
  | error e => rw [ho] at h; exact absurd h (by simp)
  | ok ws =>
    rw [ho] at h
    simp only [Except.ok.injEq] at h
    subst h
    exact List.sorted_insertionSort appWinLe ws

/-- Witness for C2 on Scenario A. -/
theorem c2_witness : List.Sorted appWinLe [scnAppWindow] :=
  c2_app_sorted_by_rise [scnPass1] [scnPass2] [scnAppWindow] (by decide)

/-- C3 counterexample: the service implementation emits identical windows
for two inputs whose contributing station-1 passes differ (rise 10:00:00
versus 10:01:00), so its windows cannot carry back-references to the
contributing passes — the claimed fields exist only in the app
implementation's windows. -/
theorem c3_counterexample :
    svcFindCommonWindows [scnPass1] [scnPass2] =
      svcFindCommonWindows [scnPass1Shifted] [scnPass2] ∧
    scnPass1.rise_time_utc ≠ scnPass1Shifted.rise_time_utc := by
  exact ⟨by decide, by decide⟩

/-- C3 amended: every window emitted by the app implementation carries
back-references to the two contributing passes: the station-1 rise, set
and max-elevation fields are exactly those of a station-1 input pass, and
likewise for station 2; the service implementation's windows carry no such
fields. -/
theorem c3_app_windows_carry_backrefs (A B : List SatellitePass) (l : List AppWindow)
    (h : appFindCommonWindows A B = .ok l) :
    ∀ w ∈ l, ∃ p1 ∈ A, ∃ p2 ∈ B,
      w.station1_rise = p1.rise_time_utc ∧ w.station1_set = p1.set_time_utc ∧
      w.station1_max_el = p1.max_elevation_degrees ∧
      w.station2_rise = p2.rise_time_utc ∧ w.station2_set = p2.set_time_utc ∧
      w.station2_max_el = p2.max_elevation_degrees := by
  rw [appFindCommonWindows] at h
  cases ho : appOuterLoop A B with
  | error e => rw [ho] at h; exact absurd h (by simp)
  | ok ws =>
    rw [ho] at h
    simp only [Except.ok.injEq] at h
    subst h
    intro w hw
    have hwmem : w ∈ ws := (List.perm_insertionSort appWinLe ws).mem_iff.mp hw
    obtain ⟨p1, hp1, p2, hp2, hpw⟩ := appOuterLoop_mem A B ws ho w hwmem
    exact ⟨p1, hp1, p2, hp2, appPairPure_backrefs p1 p2 w hpw⟩

/-- Witness for C3 on Scenario A: the single app window points back at the
two scenario passes. -/
theorem c3_witness :
    ∃ p1 ∈ [scnPass1], ∃ p2 ∈ [scnPass2],
      scnAppWindow.station1_rise = p1.rise_time_utc ∧
      scnAppWindow.station1_set = p1.set_time_utc ∧
      scnAppWindow.station1_max_el = p1.max_elevation_degrees ∧
      scnAppWindow.station2_rise = p2.rise_time_utc ∧
      scnAppWindow.station2_set = p2.set_time_utc ∧
      scnAppWindow.station2_max_el = p2.max_elevation_degrees :=
  c3_app_windows_carry_backrefs [scnPass1] [scnPass2] [scnAppWindow] (by decide)
    scnAppWindow (by decide)
